import Mathlib

/-!
Verification development for the swyh-rs streaming core (src/main.rs).

The definitions below are a shallow embedding of the concurrent
audio-distribution and streaming-server engine of `src/main.rs`:
the per-request behaviour of the `run_server` worker loop, the shared
client registry (`CLIENTS` HashMap behind a RwLock, modelled as an
association list since the claims only concern key/value content),
the feedback channel events, the `main`-loop feedback consumer, and
the `run_rms_monitor` windowed RMS aggregator.

Machine integers: the Rust code uses `u32`/`i64`/`usize`.  The sums of
squares accumulated by the RMS monitor fit comfortably in `i64` for the
window sizes actually reachable (at most `u32::MAX` samples of squared
`i16` values per window would still be below `2^63`), so they are
modelled as unbounded `Int`; `usize` constants are modelled as `Nat`
with the 64-bit value `USIZE_MAX = 2 ^ 64 - 1` made explicit.
-/

namespace SwyhRs

/-- Modelled from the spec (§3 WavData) and the construction site in
`main` (main.rs lines 417-421): the immutable audio-format snapshot.
The `sample_format` tag is omitted: no claim mentions it.
`sample_rate` models `cpal::SampleRate(u32).0`. -/
structure WavData where
  sample_rate : Nat
  channels : Nat
deriving DecidableEq

/-- Modelled from the spec (§3 config snapshot consumed): the two
configuration fields `run_server` reads from the per-request
`CONFIG.read().clone()` snapshot (main.rs line 754).  The full
`Configuration` struct lives in `utils/configuration.rs` (not under
`src/`); only these fields are consumed by the code the claims cover. -/
structure Configuration where
  use_wave_format : Bool
  disable_chunked : Bool
deriving DecidableEq

/-- Modelled from the spec (§3 ChannelStreamAdapter state) and the
constructor call in `run_server` (main.rs lines 779-785):
`ChannelStream::new(tx, rx, remote_ip, use_wave_format, sample_rate)`.
The crossbeam channel handles and the internal queue are omitted:
the claims only concern the registry's key/value content and the
`remote_ip` field read by `main`'s feedback consumer. -/
structure ChannelStream where
  remote_ip : String
  use_wave_format : Bool
  sample_rate : Nat
deriving DecidableEq

/-- `StreamingState` from main.rs lines 90-94. -/
inductive StreamingState where
  | Started
  | Ended
deriving DecidableEq

/-- `StreamerFeedBack` from main.rs lines 103-107. -/
structure StreamerFeedBack where
  remote_ip : String
  streaming_state : StreamingState
deriving DecidableEq

/-- `tiny_http::Method` as matched by `run_server` (main.rs lines
764, 840, 854): only `Get`, `Head` and `Post` are inspected; every
other method falls through the `if`/`else if` chain. -/
inductive Method where
  | Get
  | Head
  | Post
  | Put
  | Delete
  | Connect
  | Options
  | Trace
  | Patch
  | NonStandard (s : String)
deriving DecidableEq

/-- An incoming request as observed by the worker loop: its method,
its url (`rq.url()`), and the formatted remote socket address
(`format!("{}", rq.remote_addr())`, a `host:port` string). -/
structure Request where
  method : Method
  url : String
  remote_addr : String
deriving DecidableEq

/-- `usize::MAX` on the 64-bit targets the program supports. -/
def USIZE_MAX : Nat := 2 ^ 64 - 1

/-- The `CLIENTS` registry (main.rs line 111): a `HashMap<String,
ChannelStream>` modelled as an association list; `insertKey` replaces
any existing binding of the key, as `HashMap::insert` does. -/
abbrev Registry := List (String × ChannelStream)

/-- `HashMap::remove(&key)` on the modelled registry. -/
def removeKey (reg : Registry) (k : String) : Registry :=
  reg.filter (fun p => p.1 != k)

/-- `HashMap::insert(key, value)` on the modelled registry. -/
def insertKey (reg : Registry) (k : String) (v : ChannelStream) : Registry :=
  (k, v) :: removeKey reg k

/-- `HashMap::contains_key(&key)` on the modelled registry. -/
def containsKey (reg : Registry) (k : String) : Bool :=
  reg.any (fun p => p.1 == k)

/-- The ip test run by `main`'s feedback consumer (main.rs lines
593-596): `CLIENTS.read().values().any(|cs| cs.remote_ip == ip)`.
This is the spec's `ClientRegistry.contains_ip(ip)`. -/
def containsIp (reg : Registry) (ip : String) : Bool :=
  reg.any (fun p => p.2.remote_ip == ip)

/-- The port-stripping done in `run_server` (main.rs lines 718-721,
749-751): truncate the `host:port` string at the first `':'` (i.e. keep
the characters before the first colon; `':'` is a single-byte ASCII
character, so byte-position truncation and character truncation
coincide). -/
def stripPort (s : String) : String :=
  ⟨s.data.takeWhile (fun c => c != ':')⟩

/-- `Content-Type` text computed per request (main.rs lines 755-759). -/
def ct_text (conf : Configuration) (wd : WavData) : String :=
  if conf.use_wave_format then "audio/vnd.wave;codec=1"
  else "audio/L16;rate=" ++ toString wd.sample_rate ++ ";channels=2"

/-- The `(streamsize, chunked_threshold)` pair computed for a GET
response (main.rs lines 771-777). -/
def transfer_policy (conf : Configuration) : Option Nat × Nat :=
  if conf.disable_chunked then (some (USIZE_MAX - 1), USIZE_MAX)
  else (none, 8192)

/-- Modelled from the spec (§4.5c, §8.5): the transfer-framing decision of
the HTTP library under a chunking threshold — chunked framing is used for
a body of `body_len` bytes exactly when it exceeds `threshold` ("chunk
after 8192 bytes"; "chunking to begin exactly at the 8192-byte boundary").
The library itself (`tiny_http`) is an external dependency, so this
contract is taken from the spec's words. -/
def uses_chunked_framing (body_len threshold : Nat) : Bool :=
  threshold < body_len

/-- One observable step of a worker thread, in program order.
`respond` is an explicit `rq.respond(response)` call made by
`run_server`; `autoRespond` is the response the HTTP library itself
sends when a `tiny_http::Request` is dropped without having been
answered — per the crate's documented `Drop` behaviour, an empty
response with the given status code (500). -/
inductive Action where
  | insertClient (key : String) (cs : ChannelStream)
  | removeClient (key : String)
  | sendFeedback (ip : String) (st : StreamingState)
  | respond (status : Nat) (headers : List (String × String))
      (body : Option (Option Nat × Nat)) (ok : Bool)
  | autoRespond (status : Nat)
deriving DecidableEq

/-- One iteration of a `run_server` worker's request loop (main.rs lines
715-866), as a function from the request, the per-request config
snapshot, the `WavData`, and the current registry to the resulting
registry together with the ordered list of observable actions.

`respondOk` is the outcome of `rq.respond(response)`: on `Err` the code
only logs and then continues on exactly the same straight-line path, so
the outcome influences nothing but the `ok` field of the `respond`
action.  For a GET the second `ChannelStream::new` (main.rs lines
800-806) receives the same constructor arguments as the one inserted in
the registry; the silence pre-roll it buffers is internal to
`rwstream.rs` and not observed by any claim.

On the streaming path the `Get`/`Head`/`Post` arms each answer the
request explicitly; any other method falls through the `if`/`else if`
chain (no arm of main.rs lines 764-866 matches), so the `Request` is
dropped unanswered at the end of the loop iteration and `tiny_http`'s
`Drop` implementation automatically sends an empty 500 response — the
`autoRespond 500` action of the fall-through arm below, modelled from
the crate's documented contract since `tiny_http` is an external
dependency. -/
def handleRequest (rq : Request) (conf : Configuration) (wd : WavData)
    (reg : Registry) (respondOk : Bool) : Registry × List Action :=
  let remote_addr := rq.remote_addr
  let remote_ip := stripPort remote_addr
  let srvr_hdr : String × String := ("Server", "UPnP/1.0 DLNADOC/1.50 LAB/1.0")
  let nm_hdr : String × String := ("icy-name", "swyh-rs")
  let cc_hdr : String × String := ("Connection", "close")
  if rq.url ≠ "/stream/swyh.wav" then
    (reg, [Action.respond 404 [cc_hdr, srvr_hdr, nm_hdr] none respondOk])
  else
    let ct_hdr : String × String := ("Content-Type", ct_text conf wd)
    let tm_hdr : String × String := ("TransferMode.DLNA.ORG", "Streaming")
    match rq.method with
    | Method.Get =>
      let policy := transfer_policy conf
      let channel_stream : ChannelStream :=
        { remote_ip := remote_ip
          use_wave_format := conf.use_wave_format
          sample_rate := wd.sample_rate }
      let reg1 := insertKey reg remote_addr channel_stream
      let reg2 := removeKey reg1 remote_addr
      (reg2,
        [Action.insertClient remote_addr channel_stream,
         Action.sendFeedback remote_ip StreamingState.Started,
         Action.respond 200 [cc_hdr, ct_hdr, tm_hdr, srvr_hdr, nm_hdr]
           (some policy) respondOk,
         Action.removeClient remote_addr,
         Action.sendFeedback remote_ip StreamingState.Ended])
    | Method.Head =>
      (reg, [Action.respond 200 [cc_hdr, ct_hdr, tm_hdr, srvr_hdr, nm_hdr]
        none respondOk])
    | Method.Post =>
      (reg, [Action.respond 200 [cc_hdr, srvr_hdr, nm_hdr] none respondOk])
    | _ => (reg, [Action.autoRespond 500])

/-- A worker's request loop over a finite prefix of incoming requests:
each request is served with its own config snapshot and respond
outcome, threading the registry. -/
def serveRequests (wd : WavData) :
    List (Request × Configuration × Bool) → Registry → Registry × List Action
  | [], reg => (reg, [])
  | t :: rest, reg =>
    let r1 := handleRequest t.1 t.2.1 wd reg t.2.2
    let r2 := serveRequests wd rest r1.1
    (r2.1, r1.2 ++ r2.2)

/-- Number of `Ended` feedback events in an action trace. -/
def countEnded (acts : List Action) : Nat :=
  acts.countP (fun a =>
    match a with
    | Action.sendFeedback _ StreamingState.Ended => true
    | _ => false)

/-- The bodies of the `respond` actions of a trace, in order. -/
def respondBodies (acts : List Action) : List (Option (Option Nat × Nat)) :=
  acts.filterMap (fun a =>
    match a with
    | Action.respond _ _ body _ => some body
    | _ => none)

/-- The headers of all `respond` actions of a trace, concatenated. -/
def respondHeaders (acts : List Action) : List (String × String) :=
  acts.flatMap (fun a =>
    match a with
    | Action.respond _ hs _ _ => hs
    | _ => [])

/-- What `main`'s GUI consumer does with one `Ended` feedback event
(main.rs lines 583, 590-609): look up the button for the ip (`button`
is `none` when no button exists, `some isSet` records its state),
re-check the registry for a still-live connection from the same ip, and
only when none remains either auto-resume play (when `auto_resume` is
set, the button is on, and a renderer with that address is known) or
turn the button off. -/
inductive GuiAction where
  | resume
  | buttonOff
  | noAction
deriving DecidableEq

def handleEndedFeedback (reg : Registry) (ip : String) (auto_resume : Bool)
    (renderers : List String) (button : Option Bool) : GuiAction :=
  match button with
  | none => GuiAction.noAction
  | some isSet =>
    let still_streaming := containsIp reg ip
    if !still_streaming then
      if auto_resume && isSet then
        if renderers.contains ip then GuiAction.resume else GuiAction.noAction
      else if isSet then GuiAction.buttonOff
      else GuiAction.noAction
    else GuiAction.noAction

/-! ## The RMS monitor (`run_rms_monitor`, main.rs lines 989-1022)

The window state is the three `i64` counters of the code; every value
they take is nonnegative and far below `2^63`, so `Int` is a faithful
model (and Lean's `/` on `Int`, Euclidean division, agrees with Rust's
truncating `i64` division on these nonnegative operands).

The code publishes `((sum / nsamples) as f64).sqrt()` on each GUI
meter.  The machine below records the exact integer quotient that is
fed to `sqrt`; the theorems apply `Real.sqrt` to it where the published
level itself is at issue. -/

/-- `samples_per_update` (main.rs line 996): `u32` arithmetic
`(sample_rate * channels) / 10`, then widened to `i64`. -/
def samples_per_update (wd : WavData) : Int :=
  ((wd.sample_rate * wd.channels) / 10 : Nat)

/-- The RMS window state `{nsamples, sum_l, sum_r}`. -/
structure RmsState where
  nsamples : Int
  sum_l : Int
  sum_r : Int
deriving DecidableEq

/-- One iteration of the inner `for (n, sample) in samples.iter().enumerate()`
loop (main.rs lines 1001-1019): increment the count, add the square to the
left sum when the in-batch index `n` is even (`n & 1 == 0`) and to the
right sum otherwise, then, when the count has reached the window size,
reset the state and publish the two quotients that the code feeds to
`sqrt` for the meters. -/
def rmsSampleStep (spu : Int) (st : RmsState) (n : Nat) (sample : Int) :
    RmsState × Option (Int × Int) :=
  let nsamples := st.nsamples + 1
  let sum_l := if n % 2 = 0 then st.sum_l + sample * sample else st.sum_l
  let sum_r := if n % 2 = 0 then st.sum_r else st.sum_r + sample * sample
  if spu ≤ nsamples then
    (⟨0, 0, 0⟩, some (sum_l / nsamples, sum_r / nsamples))
  else
    (⟨nsamples, sum_l, sum_r⟩, none)

/-- The inner loop over one received batch, carrying the in-batch index
`n` (which restarts at 0 for every batch, as `enumerate` does). -/
def rmsBatchAux (spu : Int) (st : RmsState) (n : Nat) :
    List Int → RmsState × List (Int × Int)
  | [] => (st, [])
  | sample :: rest =>
    let step := rmsSampleStep spu st n sample
    let next := rmsBatchAux spu step.1 (n + 1) rest
    (next.1, step.2.toList ++ next.2)

/-- Processing of one received batch. -/
def rmsBatch (spu : Int) (st : RmsState) (batch : List Int) :
    RmsState × List (Int × Int) :=
  rmsBatchAux spu st 0 batch

/-- The `while let Ok(samples) = rms_receiver.recv()` consume loop over
the finite sequence of batches delivered before the channel closes;
it returns once the list is exhausted (channel closed). -/
def run_rms_monitor (wd : WavData) :
    List (List Int) → RmsState → RmsState × List (Int × Int)
  | [], st => (st, [])
  | batch :: more, st =>
    let r1 := rmsBatch (samples_per_update wd) st batch
    let r2 := run_rms_monitor wd more r1.1
    (r2.1, r1.2 ++ r2.2)

/-! ## Evaluation of `==` on `StreamingState` and `StreamerFeedBack`

main.rs lines 96-100 hand-write `PartialEq for StreamingState` whose
body is `self == other` — a call to the very function being defined, on
the same two arguments.  A diverging computation cannot be a Lean
function, so evaluation is modelled as a step machine over pending
calls: `EqComp.pending a b` is an active call `StreamingState::eq(a, b)`
and `EqComp.done r` a completed evaluation with result `r`.  Evaluation
terminates exactly when it reaches a `done` configuration. -/

inductive EqComp where
  | pending (a b : StreamingState)
  | done (r : Bool)
deriving DecidableEq

/-- The body of the hand-written `StreamingState::eq` (main.rs lines
97-99): `self == other`, i.e. it immediately issues the same call again
on the same arguments. -/
def stateEqBody (a b : StreamingState) : EqComp :=
  EqComp.pending a b

/-- One evaluation step: a pending call is replaced by its body; a
finished evaluation stays finished. -/
def eqStep : EqComp → EqComp
  | EqComp.pending a b => stateEqBody a b
  | EqComp.done r => EqComp.done r

/-- `n` evaluation steps. -/
def eqRun : Nat → EqComp → EqComp
  | 0, c => c
  | n + 1, c => eqRun n (eqStep c)

/-- The body of the derived `PartialEq::eq` for `StreamerFeedBack`
(main.rs line 103): field-wise comparison with short-circuit `&&`,
`self.remote_ip == other.remote_ip && self.streaming_state ==
other.streaming_state`.  String comparison terminates; when it yields
`false` the whole evaluation is done with result `false`, otherwise the
evaluation continues as a call to `StreamingState::eq`. -/
def feedbackEqBody (x y : StreamerFeedBack) : EqComp :=
  if x.remote_ip = y.remote_ip then
    stateEqBody x.streaming_state y.streaming_state
  else
    EqComp.done false

/-! ## Theorems -/

/-- Helper: removing a key really removes every binding of it. -/
theorem containsKey_removeKey (reg : Registry) (k : String) :
    containsKey (removeKey reg k) k = false := by
  simp [containsKey, removeKey, List.any_eq_true, List.mem_filter]

/-- C3: for every GET request on the streaming path, whatever registry
the connection started from and whether `rq.respond` succeeded or
failed, the registry entry created under the connection's key (the
remote socket address) is gone from the registry the handler leaves
behind: no registry entry outlives its connection's response. -/
theorem get_teardown_no_leak (conf : Configuration) (wd : WavData)
    (reg : Registry) (addr : String) (ok : Bool) :
    containsKey
      (handleRequest ⟨Method.Get, "/stream/swyh.wav", addr⟩ conf wd reg ok).1
      addr = false := by
  simp only [handleRequest]
  simp only [ne_eq, not_true_eq_false, if_false, reduceIte]
  exact containsKey_removeKey _ addr

/-- C7: every request whose url is not the streaming endpoint — any
method — gets exactly one 404 response carrying the `Connection: close`,
`Server` and `icy-name` headers, with no registry interaction and no
feedback event, and the worker loop goes on to serve the remaining
requests from the unchanged registry. -/
theorem not_found_response (rq : Request) (conf : Configuration)
    (wd : WavData) (reg : Registry) (ok : Bool)
    (h : rq.url ≠ "/stream/swyh.wav") :
    handleRequest rq conf wd reg ok =
      (reg, [Action.respond 404
        [("Connection", "close"),
         ("Server", "UPnP/1.0 DLNADOC/1.50 LAB/1.0"),
         ("icy-name", "swyh-rs")] none ok]) ∧
    ∀ rest : List (Request × Configuration × Bool),
      serveRequests wd ((rq, conf, ok) :: rest) reg =
        ((serveRequests wd rest reg).1,
         Action.respond 404
           [("Connection", "close"),
            ("Server", "UPnP/1.0 DLNADOC/1.50 LAB/1.0"),
            ("icy-name", "swyh-rs")] none ok :: (serveRequests wd rest reg).2) := by
  have h1 : handleRequest rq conf wd reg ok =
      (reg, [Action.respond 404
        [("Connection", "close"),
         ("Server", "UPnP/1.0 DLNADOC/1.50 LAB/1.0"),
         ("icy-name", "swyh-rs")] none ok]) := by
    simp [handleRequest, h]
  refine ⟨h1, fun rest => ?_⟩
  simp [serveRequests, h1]

/-- C7 witness: a POST to a non-streaming path. -/
theorem not_found_response_witness :
    handleRequest ⟨Method.Post, "/favicon.ico", "10.0.0.7:3200"⟩
        ⟨false, false⟩ ⟨44100, 2⟩ [] true =
      ([], [Action.respond 404
        [("Connection", "close"),
         ("Server", "UPnP/1.0 DLNADOC/1.50 LAB/1.0"),
         ("icy-name", "swyh-rs")] none true]) :=
  (not_found_response ⟨Method.Post, "/favicon.ico", "10.0.0.7:3200"⟩
    ⟨false, false⟩ ⟨44100, 2⟩ [] true (by decide)).1

/-- C10 counterexample: a PUT on the streaming path.  The claim says
the server sends no response at all for such a request — no status
line.  But the request, answered by no arm of the `if`/`else if` chain,
is dropped unanswered at the end of the loop iteration, and the HTTP
library's documented `Drop` behaviour then sends the client an empty
500 response: a status line does go out. -/
theorem unknown_method_auto_500_cex :
    handleRequest ⟨Method.Put, "/stream/swyh.wav", "1.2:9"⟩
        ⟨false, false⟩ ⟨44100, 2⟩ [] true =
      ([], [Action.autoRespond 500]) := by
  decide

/-- C10 (amended): for a request on the streaming path whose method is
none of GET, HEAD and POST, `run_server` itself makes no explicit
respond call, no registry change and no feedback event, and proceeds to
the next incoming request with the registry untouched; the only thing
the client receives is the empty 500 response that `tiny_http` sends
automatically when the unanswered request is dropped. -/
theorem unknown_method_amended (m : Method) (conf : Configuration)
    (wd : WavData) (reg : Registry) (addr : String) (ok : Bool)
    (h1 : m ≠ Method.Get) (h2 : m ≠ Method.Head) (h3 : m ≠ Method.Post) :
    handleRequest ⟨m, "/stream/swyh.wav", addr⟩ conf wd reg ok =
      (reg, [Action.autoRespond 500]) ∧
    ∀ rest : List (Request × Configuration × Bool),
      serveRequests wd ((⟨m, "/stream/swyh.wav", addr⟩, conf, ok) :: rest) reg =
        ((serveRequests wd rest reg).1,
         Action.autoRespond 500 :: (serveRequests wd rest reg).2) := by
  have hh : handleRequest ⟨m, "/stream/swyh.wav", addr⟩ conf wd reg ok =
      (reg, [Action.autoRespond 500]) := by
    cases m <;> simp_all [handleRequest]
  refine ⟨hh, fun rest => ?_⟩
  simp [serveRequests, hh]

/-- C10 amended witness: a DELETE on the streaming path. -/
theorem unknown_method_amended_witness :
    handleRequest ⟨Method.Delete, "/stream/swyh.wav", "10.0.0.7:3200"⟩
        ⟨true, true⟩ ⟨48000, 2⟩ [] false = ([], [Action.autoRespond 500]) :=
  (unknown_method_amended Method.Delete ⟨true, true⟩ ⟨48000, 2⟩ []
    "10.0.0.7:3200" false (by decide) (by decide) (by decide)).1

/-- C8: on the streaming path the `Content-Type` header value is
computed from the per-request config snapshot — it is
`audio/vnd.wave;codec=1` when `use_wave_format` is set and
`audio/L16;rate=<sample_rate>;channels=2` otherwise — and both the GET
and the HEAD response carry exactly that header. -/
theorem content_type_header (conf : Configuration) (wd : WavData)
    (reg : Registry) (addr : String) (ok : Bool) (d : Bool) :
    ("Content-Type", ct_text conf wd) ∈
      respondHeaders
        (handleRequest ⟨Method.Get, "/stream/swyh.wav", addr⟩ conf wd reg ok).2 ∧
    ("Content-Type", ct_text conf wd) ∈
      respondHeaders
        (handleRequest ⟨Method.Head, "/stream/swyh.wav", addr⟩ conf wd reg ok).2 ∧
    ct_text ⟨true, d⟩ wd = "audio/vnd.wave;codec=1" ∧
    ct_text ⟨false, d⟩ wd =
      "audio/L16;rate=" ++ toString wd.sample_rate ++ ";channels=2" := by
  refine ⟨?_, ?_, by simp [ct_text], by simp [ct_text]⟩ <;>
    simp [handleRequest, respondHeaders]

/-- C4: the transfer policy of every GET response on the streaming path
is the pair computed from the snapshot's `disable_chunked` flag: with
the flag set the response advertises the fixed content length
`usize::MAX - 1` under the chunking threshold `usize::MAX` — so no body
a 64-bit process can produce is ever chunk-encoded — and with the flag
clear it advertises no fixed length and chunked framing begins exactly
beyond 8192 bytes. -/
theorem transfer_policy_correct (conf : Configuration) (wd : WavData)
    (reg : Registry) (addr : String) (ok : Bool) :
    respondBodies
        (handleRequest ⟨Method.Get, "/stream/swyh.wav", addr⟩ conf wd reg ok).2
      = [some (transfer_policy conf)] ∧
    (∀ u : Bool, transfer_policy ⟨u, true⟩ = (some (USIZE_MAX - 1), USIZE_MAX)) ∧
    (∀ u : Bool, transfer_policy ⟨u, false⟩ = (none, 8192)) ∧
    (∀ b : Nat, b ≤ USIZE_MAX - 1 → uses_chunked_framing b USIZE_MAX = false) ∧
    (∀ b : Nat, uses_chunked_framing b 8192 = true ↔ 8192 < b) := by
  refine ⟨?_, fun u => by simp [transfer_policy], fun u => by simp [transfer_policy],
    fun b hb => ?_, fun b => by simp [uses_chunked_framing]⟩
  · simp [handleRequest, respondBodies]
  · have hmax : USIZE_MAX = 18446744073709551615 := by norm_num [USIZE_MAX]
    simp only [uses_chunked_framing, decide_eq_false_iff_not, not_lt]
    omega

/-- C4 witness: a GET with chunking disabled, and a 100000-byte body
staying un-chunked under the `usize::MAX` threshold. -/
theorem transfer_policy_correct_witness :
    respondBodies
        (handleRequest ⟨Method.Get, "/stream/swyh.wav", "10.0.0.7:3200"⟩
          ⟨false, true⟩ ⟨44100, 2⟩ [] true).2
      = [some (transfer_policy ⟨false, true⟩)] ∧
    uses_chunked_framing 100000 USIZE_MAX = false := by
  have h := transfer_policy_correct ⟨false, true⟩ ⟨44100, 2⟩ [] "10.0.0.7:3200" true
  exact ⟨h.1, h.2.2.2.1 100000 (by norm_num [USIZE_MAX])⟩

/-- The action trace of a GET request on the streaming path. -/
def getStreamTrace (conf : Configuration) (wd : WavData) (reg : Registry)
    (addr : String) (ok : Bool) : List Action :=
  (handleRequest ⟨Method.Get, "/stream/swyh.wav", addr⟩ conf wd reg ok).2

/-- Helper: the explicit GET action trace. -/
theorem getStreamTrace_eq (conf : Configuration) (wd : WavData)
    (reg : Registry) (addr : String) (ok : Bool) :
    getStreamTrace conf wd reg addr ok =
      [Action.insertClient addr
         ⟨stripPort addr, conf.use_wave_format, wd.sample_rate⟩,
       Action.sendFeedback (stripPort addr) StreamingState.Started,
       Action.respond 200
         [("Connection", "close"), ("Content-Type", ct_text conf wd),
          ("TransferMode.DLNA.ORG", "Streaming"),
          ("Server", "UPnP/1.0 DLNADOC/1.50 LAB/1.0"), ("icy-name", "swyh-rs")]
         (some (transfer_policy conf)) ok,
       Action.removeClient addr,
       Action.sendFeedback (stripPort addr) StreamingState.Ended] := by
  simp [getStreamTrace, handleRequest]

/-- C5: in the GET trace, every `Started` feedback event is preceded by
the registry insert of the connection's adapter under the connection's
key, and every `Ended` feedback event is preceded by the registry
remove of that key. -/
theorem feedback_ordering (conf : Configuration) (wd : WavData)
    (reg : Registry) (addr : String) (ok : Bool) :
    (∀ (j : Nat) (ip : String),
      (getStreamTrace conf wd reg addr ok)[j]? =
          some (Action.sendFeedback ip StreamingState.Started) →
      ∃ (i : Nat) (cs : ChannelStream), i < j ∧
        (getStreamTrace conf wd reg addr ok)[i]? =
          some (Action.insertClient addr cs)) ∧
    (∀ (j : Nat) (ip : String),
      (getStreamTrace conf wd reg addr ok)[j]? =
          some (Action.sendFeedback ip StreamingState.Ended) →
      ∃ i : Nat, i < j ∧
        (getStreamTrace conf wd reg addr ok)[i]? =
          some (Action.removeClient addr)) := by
  have htr := getStreamTrace_eq conf wd reg addr ok
  constructor
  · intro j ip hj
    rw [htr] at hj
    match j with
    | 0 => simp at hj
    | 1 =>
      refine ⟨0, ⟨stripPort addr, conf.use_wave_format, wd.sample_rate⟩,
        by omega, ?_⟩
      rw [htr]
      simp
    | 2 => simp at hj
    | 3 => simp at hj
    | 4 => simp at hj
    | n + 5 => simp at hj
  · intro j ip hj
    rw [htr] at hj
    match j with
    | 0 => simp at hj
    | 1 => simp at hj
    | 2 => simp at hj
    | 3 => simp at hj
    | 4 => exact ⟨3, by omega, by rw [htr]; simp⟩
    | n + 5 => simp at hj

/-- C5 witness: the concrete trace of a GET from `1.2:9`. -/
theorem feedback_ordering_witness :
    ∃ (i : Nat) (cs : ChannelStream), i < 1 ∧
      (getStreamTrace ⟨false, false⟩ ⟨44100, 2⟩ [] "1.2:9" true)[i]? =
        some (Action.insertClient "1.2:9" cs) :=
  (feedback_ordering ⟨false, false⟩ ⟨44100, 2⟩ [] "1.2:9" true).1 1 "1.2"
    (by decide)

/-- C1 counterexample: a second connection from the same host (ip
`1.2`, key `1.2:7`) is registered for the whole lifetime of the closing
GET connection `1.2:9`, yet the server still emits one `Ended` feedback
event for that ip (the claim demands zero in this situation): the
emission in `run_server` is unconditional, no `contains_ip` check
guards it. -/
theorem ended_unconditional_cex :
    countEnded (handleRequest ⟨Method.Get, "/stream/swyh.wav", "1.2:9"⟩
        ⟨false, false⟩ ⟨44100, 2⟩ [("1.2:7", ⟨"1.2", false, 44100⟩)] true).2 = 1 ∧
    containsIp (handleRequest ⟨Method.Get, "/stream/swyh.wav", "1.2:9"⟩
        ⟨false, false⟩ ⟨44100, 2⟩ [("1.2:7", ⟨"1.2", false, 44100⟩)] true).1
      "1.2" = true := by
  constructor <;> decide

/-- C1 (amended): every closing GET connection makes the server emit
exactly one `Ended` feedback event for its ip, unconditionally — the
`contains_ip` suppression lives in `main`'s feedback consumer, which
ignores an `Ended` event (no button-state action) whenever a registry
entry with that ip still exists. -/
theorem ended_emission_amended (conf : Configuration) (wd : WavData)
    (reg : Registry) (addr : String) (ok : Bool) :
    countEnded
      (handleRequest ⟨Method.Get, "/stream/swyh.wav", addr⟩ conf wd reg ok).2
      = 1 ∧
    (∀ (reg2 : Registry) (ip : String) (ar : Bool) (rs : List String)
        (b : Option Bool),
      containsIp reg2 ip = true →
      handleEndedFeedback reg2 ip ar rs b = GuiAction.noAction) := by
  constructor
  · simp [handleRequest, countEnded]
  · intro reg2 ip ar rs b h
    cases b with
    | none => rfl
    | some isSet => simp [handleEndedFeedback, h]

/-- C1 amended witness: one `Ended` event for the closing GET from
`1.2:9`, and the consumer ignoring an `Ended` whose ip is still
registered. -/
theorem ended_emission_amended_witness :
    countEnded (handleRequest ⟨Method.Get, "/stream/swyh.wav", "1.2:9"⟩
        ⟨true, false⟩ ⟨48000, 2⟩ [] false).2 = 1 ∧
    handleEndedFeedback [("1.2:7", ⟨"1.2", false, 44100⟩)] "1.2" true ["1.2"]
      (some true) = GuiAction.noAction := by
  have h := ended_emission_amended ⟨true, false⟩ ⟨48000, 2⟩ [] "1.2:9" false
  exact ⟨h.1, h.2 [("1.2:7", ⟨"1.2", false, 44100⟩)] "1.2" true ["1.2"]
    (some true) (by decide)⟩

/-- C9 counterexample: evaluating the derived `==` on two
`StreamerFeedBack` values whose `remote_ip` fields differ terminates at
once with `false` — the short-circuit `&&` never reaches the diverging
`StreamingState::eq` — contradicting the claim that equality between
any two `StreamerFeedBack` values never terminates. -/
theorem feedback_eq_terminates_cex :
    feedbackEqBody ⟨"a", StreamingState.Started⟩ ⟨"b", StreamingState.Started⟩ =
      EqComp.done false ∧
    eqRun 10 (feedbackEqBody ⟨"a", StreamingState.Started⟩
      ⟨"b", StreamingState.Started⟩) = EqComp.done false := by
  constructor <;> decide

/-- C9 (amended): evaluating `==` on any two `StreamingState` values
never terminates — the hand-written `eq` calls itself unconditionally
on its own arguments, so after any number of steps the computation is
still the same pending call; consequently `==` on two
`StreamerFeedBack` values never terminates when their `remote_ip`
fields are equal, and terminates with `false` when they differ. -/
theorem eq_divergence_amended :
    (∀ (a b : StreamingState) (n : Nat),
      eqRun n (stateEqBody a b) = EqComp.pending a b) ∧
    (∀ (x y : StreamerFeedBack), x.remote_ip = y.remote_ip → ∀ n : Nat,
      eqRun n (feedbackEqBody x y) =
        EqComp.pending x.streaming_state y.streaming_state) ∧
    (∀ (x y : StreamerFeedBack), x.remote_ip ≠ y.remote_ip →
      feedbackEqBody x y = EqComp.done false) := by
  have key : ∀ (a b : StreamingState) (n : Nat),
      eqRun n (stateEqBody a b) = EqComp.pending a b := by
    intro a b n
    induction n with
    | zero => rfl
    | succ n ih => exact ih
  refine ⟨key, fun x y h n => ?_, fun x y h => ?_⟩
  · have hb : feedbackEqBody x y =
        stateEqBody x.streaming_state y.streaming_state := by
      simp [feedbackEqBody, h]
    rw [hb]
    exact key _ _ n
  · simp [feedbackEqBody, h]

/-- C9 amended witness: the pending call survives 7 steps for
`StreamingState` arguments, 3 steps for equal-ip `StreamerFeedBack`
arguments, and different-ip arguments finish with `false`. -/
theorem eq_divergence_amended_witness :
    eqRun 7 (stateEqBody StreamingState.Started StreamingState.Ended) =
      EqComp.pending StreamingState.Started StreamingState.Ended ∧
    eqRun 3 (feedbackEqBody ⟨"a", StreamingState.Started⟩
        ⟨"a", StreamingState.Ended⟩) =
      EqComp.pending StreamingState.Started StreamingState.Ended ∧
    feedbackEqBody ⟨"a", StreamingState.Started⟩ ⟨"b", StreamingState.Started⟩ =
      EqComp.done false := by
  have h := eq_divergence_amended
  exact ⟨h.1 _ _ 7, h.2.1 ⟨"a", StreamingState.Started⟩
    ⟨"a", StreamingState.Ended⟩ rfl 3, h.2.2 _ _ (by decide)⟩

/-- C6: the per-sample behaviour of the RMS monitor — an even in-batch
index accumulates the square into the left sum and leaves the right sum
alone, an odd index the converse; the sample count always advances by
one; as soon as the count reaches the window size
`sample_rate * channels / 10` the step publishes the per-channel
quotients `sum / count` (whose `f64` square roots are the displayed
levels) and resets all three counters to zero, and otherwise publishes
nothing; and the consume loop returns as soon as its input is
exhausted (channel closed). -/
theorem rms_monitor_behavior :
    (∀ (spu : Int) (st : RmsState) (n : Nat) (s : Int), n % 2 = 0 →
      rmsSampleStep spu st n s =
        if spu ≤ st.nsamples + 1 then
          (⟨0, 0, 0⟩, some ((st.sum_l + s * s) / (st.nsamples + 1),
                            st.sum_r / (st.nsamples + 1)))
        else (⟨st.nsamples + 1, st.sum_l + s * s, st.sum_r⟩, none)) ∧
    (∀ (spu : Int) (st : RmsState) (n : Nat) (s : Int), n % 2 = 1 →
      rmsSampleStep spu st n s =
        if spu ≤ st.nsamples + 1 then
          (⟨0, 0, 0⟩, some (st.sum_l / (st.nsamples + 1),
                            (st.sum_r + s * s) / (st.nsamples + 1)))
        else (⟨st.nsamples + 1, st.sum_l, st.sum_r + s * s⟩, none)) ∧
    (∀ (wd : WavData) (st : RmsState), run_rms_monitor wd [] st = (st, [])) := by
  refine ⟨fun spu st n s h => ?_, fun spu st n s h => ?_, fun wd st => rfl⟩
  · simp [rmsSampleStep, h]
  · have h0 : ¬ n % 2 = 0 := by omega
    simp [rmsSampleStep, h0]

/-- C6 witness: one even-index step, one odd-index step, and the loop
returning on a closed channel. -/
theorem rms_monitor_behavior_witness :
    rmsSampleStep 4 ⟨0, 0, 0⟩ 0 3 = (⟨1, 9, 0⟩, none) ∧
    rmsSampleStep 4 ⟨0, 0, 0⟩ 1 3 = (⟨1, 0, 9⟩, none) ∧
    run_rms_monitor ⟨44100, 2⟩ [] ⟨1, 2, 3⟩ = (⟨1, 2, 3⟩, []) := by
  have h := rms_monitor_behavior
  refine ⟨?_, ?_, h.2.2 ⟨44100, 2⟩ ⟨1, 2, 3⟩⟩
  · rw [h.1 4 ⟨0, 0, 0⟩ 0 3 rfl]
    decide
  · rw [h.2.1 4 ⟨0, 0, 0⟩ 1 3 rfl]
    decide

/-- C2 counterexample: with `sample_rate = 20` and `channels = 2` one
window is 4 samples; feeding one window of constant amplitude `A = 10`
publishes the quotient pair `(50, 50)` — the code divides each
channel's sum of squares by the total interleaved count, not the
per-channel count — so the displayed level `sqrt 50 ≈ 7.07` is not `A =
10` (a 29% error, far outside floating tolerance). -/
theorem rms_constant_not_A_cex :
    run_rms_monitor ⟨20, 2⟩ [List.replicate 4 10] ⟨0, 0, 0⟩ =
      (⟨0, 0, 0⟩, [(50, 50)]) ∧
    Real.sqrt ((50 : Int) : ℝ) ≠ ((10 : Int) : ℝ) := by
  constructor
  · decide
  · intro hcontra
    have h50 : Real.sqrt ((50 : Int) : ℝ) ^ 2 = ((50 : Int) : ℝ) :=
      Real.sq_sqrt (by norm_num)
    rw [hcontra] at h50
    norm_num at h50

/-- Helper: the step at an even in-batch index. -/
theorem rmsSampleStep_even (spu : Int) (st : RmsState) (n : Nat) (s : Int)
    (h : n % 2 = 0) :
    rmsSampleStep spu st n s =
      if spu ≤ st.nsamples + 1 then
        (⟨0, 0, 0⟩, some ((st.sum_l + s * s) / (st.nsamples + 1),
                          st.sum_r / (st.nsamples + 1)))
      else (⟨st.nsamples + 1, st.sum_l + s * s, st.sum_r⟩, none) := by
  simp [rmsSampleStep, h]

/-- Helper: the step at an odd in-batch index. -/
theorem rmsSampleStep_odd (spu : Int) (st : RmsState) (n : Nat) (s : Int)
    (h : n % 2 = 1) :
    rmsSampleStep spu st n s =
      if spu ≤ st.nsamples + 1 then
        (⟨0, 0, 0⟩, some (st.sum_l / (st.nsamples + 1),
                          (st.sum_r + s * s) / (st.nsamples + 1)))
      else (⟨st.nsamples + 1, st.sum_l, st.sum_r + s * s⟩, none) := by
  have h0 : ¬ n % 2 = 0 := by omega
  simp [rmsSampleStep, h0]

/-- Helper for the constant-window computation: running the inner batch
loop over the remaining `k` constant samples `A`, starting at in-batch
index `n` with the state the loop reaches after `n` constant samples
(count `n`, left sum `⌈n/2⌉·A²`, right sum `⌊n/2⌋·A²`) and a window
size equal to the total `n + k`, publishes exactly once — at the last
sample — the two quotients, and leaves the reset state behind. -/
theorem rmsBatchAux_const (A : Int) :
    ∀ (k n : Nat) (spu c0 cl cr outL outR : Int),
      spu = (n : Int) + (k : Int) → 0 < k →
      c0 = (n : Int) →
      cl = (((n + 1) / 2 : Nat) : Int) * (A * A) →
      cr = ((n / 2 : Nat) : Int) * (A * A) →
      outL = (((n + k + 1) / 2 : Nat) : Int) * (A * A) / spu →
      outR = (((n + k) / 2 : Nat) : Int) * (A * A) / spu →
      rmsBatchAux spu ⟨c0, cl, cr⟩ n (List.replicate k A) =
        (⟨0, 0, 0⟩, [(outL, outR)]) := by
  intro k
  induction k with
  | zero =>
    intro n spu c0 cl cr outL outR _ hk _ _ _ _ _
    exact absurd hk (by omega)
  | succ k ih =>
    intro n spu c0 cl cr outL outR hspu hk hc0 hcl hcr houtL houtR
    rw [List.replicate_succ]
    simp only [rmsBatchAux]
    by_cases hk0 : k = 0
    · -- last sample of the window: publish and reset
      subst hk0
      have hd : spu = c0 + 1 := by
        rw [hspu, hc0]
        push_cast
        ring
      have hcondT : spu ≤ c0 + 1 := le_of_eq hd
      rcases Nat.even_or_odd n with he | ho
      · have hn : n % 2 = 0 := Nat.even_iff.mp he
        rw [rmsSampleStep_even spu _ n A hn]
        dsimp only
        rw [if_pos hcondT]
        have hL : outL = (cl + A * A) / (c0 + 1) := by
          rw [houtL, hcl, hc0, hspu]
          have e : (n + (0 + 1) + 1) / 2 = (n + 1) / 2 + 1 := by omega
          rw [e]
          congr 1
          all_goals (push_cast; ring)
        have hR : outR = cr / (c0 + 1) := by
          rw [houtR, hcr, hc0, hspu]
          have e : (n + (0 + 1)) / 2 = n / 2 := by omega
          rw [e]
          congr 1
        rw [hL, hR]
        simp [rmsBatchAux]
      · have hn : n % 2 = 1 := Nat.odd_iff.mp ho
        rw [rmsSampleStep_odd spu _ n A hn]
        dsimp only
        rw [if_pos hcondT]
        have hL : outL = cl / (c0 + 1) := by
          rw [houtL, hcl, hc0, hspu]
          have e : (n + (0 + 1) + 1) / 2 = (n + 1) / 2 := by omega
          rw [e]
          congr 1
        have hR : outR = (cr + A * A) / (c0 + 1) := by
          rw [houtR, hcr, hc0, hspu]
          have e : (n + (0 + 1)) / 2 = n / 2 + 1 := by omega
          rw [e]
          congr 1
          all_goals (push_cast; ring)
        rw [hL, hR]
        simp [rmsBatchAux]
    · -- interior sample: no publish, recurse
      have hcond : ¬ spu ≤ c0 + 1 := by
        rw [hspu, hc0]
        push_cast
        omega
      rcases Nat.even_or_odd n with he | ho
      · have hn : n % 2 = 0 := Nat.even_iff.mp he
        rw [rmsSampleStep_even spu _ n A hn]
        dsimp only
        rw [if_neg hcond]
        have hrec := ih (n + 1) spu (c0 + 1) (cl + A * A) cr outL outR
          (by rw [hspu]; push_cast; ring)
          (by omega)
          (by rw [hc0]; push_cast; ring)
          (by rw [hcl]
              have e : (n + 1 + 1) / 2 = (n + 1) / 2 + 1 := by omega
              rw [e]
              push_cast
              ring)
          (by rw [hcr]
              have e : (n + 1) / 2 = n / 2 := by omega
              rw [e])
          (by rw [houtL]
              have e : n + 1 + k + 1 = n + (k + 1) + 1 := by omega
              rw [e])
          (by rw [houtR]
              have e : n + 1 + k = n + (k + 1) := by omega
              rw [e])
        rw [hrec]
        simp
      · have hn : n % 2 = 1 := Nat.odd_iff.mp ho
        rw [rmsSampleStep_odd spu _ n A hn]
        dsimp only
        rw [if_neg hcond]
        have hrec := ih (n + 1) spu (c0 + 1) cl (cr + A * A) outL outR
          (by rw [hspu]; push_cast; ring)
          (by omega)
          (by rw [hc0]; push_cast; ring)
          (by rw [hcl]
              have e : (n + 1 + 1) / 2 = (n + 1) / 2 := by omega
              rw [e])
          (by rw [hcr]
              have e : (n + 1) / 2 = n / 2 + 1 := by omega
              rw [e]
              push_cast
              ring)
          (by rw [houtL]
              have e : n + 1 + k + 1 = n + (k + 1) + 1 := by omega
              rw [e])
          (by rw [houtR]
              have e : n + 1 + k = n + (k + 1) := by omega
              rw [e])
        rw [hrec]
        simp

/-- C2 (amended): feeding the monitor exactly one window — the window
size `sample_rate * channels / 10` being the even number `2m` for an
interleaved stereo stream — of constant amplitude `A` makes it publish
exactly once, and on both channels the published quotient is `⌊A²/2⌋`,
so the displayed level (its square root) is `A/√2` and not `A`: the
code divides each channel's sum of squares by the total interleaved
sample count, which is twice the per-channel count. -/
theorem rms_constant_window_amended (wd : WavData) (A : Int) (m : Nat)
    (hm : 0 < m) (hN : wd.sample_rate * wd.channels / 10 = 2 * m) :
    run_rms_monitor wd [List.replicate (2 * m) A] ⟨0, 0, 0⟩ =
      (⟨0, 0, 0⟩, [(A * A / 2, A * A / 2)]) := by
  have hm2 : (0 : Int) < (m : Int) := by exact_mod_cast hm
  have hspu : samples_per_update wd = 2 * (m : Int) := by
    unfold samples_per_update
    rw [hN]
    push_cast
    ring
  have hmain := rmsBatchAux_const A (2 * m) 0 (samples_per_update wd)
      0 0 0 (A * A / 2) (A * A / 2)
      (by rw [hspu]; push_cast; ring)
      (by omega)
      (by norm_num)
      (by norm_num)
      (by norm_num)
      (by rw [hspu]
          have e : (0 + 2 * m + 1) / 2 = m := by omega
          rw [e]
          rw [show (2 : Int) * (m : Int) = (m : Int) * 2 from mul_comm _ _]
          rw [Int.mul_ediv_mul_of_pos (A * A) 2 hm2])
      (by rw [hspu]
          have e : (0 + 2 * m) / 2 = m := by omega
          rw [e]
          rw [show (2 : Int) * (m : Int) = (m : Int) * 2 from mul_comm _ _]
          rw [Int.mul_ediv_mul_of_pos (A * A) 2 hm2])
  simp only [run_rms_monitor, rmsBatch]
  rw [hmain]
  simp

/-- C2 amended witness: `sample_rate = 30`, `channels = 2` (window 6),
amplitude 4: the monitor publishes `(8, 8)`, i.e. `⌊4²/2⌋` per channel. -/
theorem rms_constant_window_amended_witness :
    run_rms_monitor ⟨30, 2⟩ [List.replicate 6 4] ⟨0, 0, 0⟩ =
      (⟨0, 0, 0⟩, [(8, 8)]) := by
  have h := rms_constant_window_amended ⟨30, 2⟩ 4 3 (by norm_num) (by norm_num)
  simpa using h

end SwyhRs
